import Mathlib

/-!
Verification of the message-delivery core of the agent wallboard backend.

The embedding follows `src/backend-server/routes/messages.js`:
the send route (`POST /send`), the inbox route (`GET /agent/:agentCode`)
and the mark-read route (`PUT /:messageId/read`).  The socket layer
(`io.emit`, `io.to(room).emit`) is modelled by an explicit list of live
connections, each carrying the role it registered with and the set of
room keys it joined; the persistence store is a list of message records
together with a counter supplying fresh ids, and a Boolean flag stands
for a failing store call.  Timestamps (`new Date()`) are natural numbers
supplied by the caller.
-/

namespace Wallboard

/-- A persisted message, mirroring the fields the send route writes:
`fromCode`, `toCode` (null for broadcasts), `content`, `type`,
`priority`, `timestamp`, `isRead`, plus `readAt` set by mark-read and
the document id assigned by the store. -/
structure MessageRecord where
  id : Nat
  fromCode : String
  toCode : Option String
  content : String
  type : String
  priority : String
  timestamp : Nat
  isRead : Bool
  readAt : Option Nat
  deriving Repr, DecidableEq

/-- Modelled from the spec: the live-connection registry kept by the
socket handler (not under src/).  Per spec section 4.2 a connection is
registered with a role (`agent` or `supervisor`) and, per the design
notes, joins socket rooms keyed by identity; the send route only relies
on which rooms a connection has joined. -/
structure Connection where
  connId : Nat
  role : String
  rooms : List String
  deriving Repr, DecidableEq

/-- The persistence store: saved records plus the next fresh id. -/
structure Store where
  records : List MessageRecord
  nextId : Nat
  deriving Repr, DecidableEq

/-- One push delivered on a live connection: target connection id,
event name, payload record. -/
abbrev Push := Nat × String × MessageRecord

/-- The body of `POST /send`; every field may be absent, as in JSON. -/
structure SendRequest where
  fromCode : Option String
  toCode : Option String
  message : Option String
  content : Option String
  type : Option String
  priority : Option String
  deriving Repr, DecidableEq

/-- Result of the send route: 400 validation error, 500 store error,
or the success body carrying the new message id. -/
inductive SendResult where
  | badRequest (error : String)
  | serverError (error : String)
  | ok (messageId : Nat)
  deriving Repr, DecidableEq

/-- Result of the mark-read route. -/
inductive MarkReadResult where
  | success
  | serverError (error : String)
  deriving Repr, DecidableEq

/-- JavaScript truthiness of an optional string: absent and empty are
falsy, any other string is truthy. -/
def truthy : Option String → Bool
  | some s => !(s == "")
  | none => false

/-- JavaScript `a || b` on optional strings: `b` when `a` is falsy. -/
def jsOr (a b : Option String) : Option String :=
  match a with
  | some s => if s == "" then b else some s
  | none => b

/-- `io.emit(event, m)`: deliver to every currently-connected socket. -/
def ioEmit (conns : List Connection) (event : String) (m : MessageRecord) : List Push :=
  conns.map (fun c => (c.connId, event, m))

/-- Does connection `c` currently sit in room `room`?  An absent room
key (undefined `toCode`) matches no connection. -/
def roomMatch (room : Option String) (c : Connection) : Bool :=
  match room with
  | some r => c.rooms.contains r
  | none => false

/-- `io.to(room).emit(event, m)`: deliver to the sockets that joined
`room`. -/
def ioToEmit (conns : List Connection) (room : Option String) (event : String)
    (m : MessageRecord) : List Push :=
  (conns.filter (roomMatch room)).map (fun c => (c.connId, event, m))

/-- The document built by `new Message({...})` in the send route:
`toCode` is nulled for broadcasts, `content` takes `message || content`,
`type` defaults to `direct`, `priority` defaults to `normal`. -/
def mkMessage (st : Store) (req : SendRequest) (now : Nat) : MessageRecord :=
  let type := req.type.getD "direct"
  { id := st.nextId
    fromCode := req.fromCode.getD ""
    toCode := if type = "broadcast" then none else req.toCode
    content := (jsOr req.message req.content).getD ""
    type := type
    priority := req.priority.getD "normal"
    timestamp := now
    isRead := false
    readAt := none }

/-- `POST /send`.  `saveFails` models the store call throwing; `sock`
is `req.app.get(io)` together with the current connections, `none` when
unset.  Returns the store after the call, the pushes emitted, and the
HTTP result. -/
def postSend (saveFails : Bool) (sock : Option (List Connection)) (st : Store)
    (req : SendRequest) (now : Nat) : Store × List Push × SendResult :=
  let type := req.type.getD "direct"
  let text := jsOr req.message req.content
  if !(truthy req.fromCode) || !(truthy text) then
    (st, [], SendResult.badRequest "From code and message are required")
  else
    let newMessage := mkMessage st req now
    if saveFails then
      (st, [], SendResult.serverError "Failed to send message")
    else
      let st2 : Store := ⟨st.records ++ [newMessage], st.nextId + 1⟩
      let pushes : List Push :=
        match sock with
        | none => []
        | some conns =>
            if type = "broadcast" then
              ioEmit conns "new_broadcast_message" newMessage
            else
              ioToEmit conns req.toCode "new_direct_message" newMessage
      (st2, pushes, SendResult.ok newMessage.id)

/-- `Message.findByIdAndUpdate(messageId, {isRead: true, readAt: now})`:
update the matching document in place; unknown ids update nothing. -/
def findByIdAndUpdateRead (records : List MessageRecord) (messageId : Nat)
    (now : Nat) : List MessageRecord :=
  records.map (fun m =>
    if m.id = messageId then { m with isRead := true, readAt := some now } else m)

/-- `PUT /:messageId/read`.  `dbFails` models the store call throwing. -/
def putMarkRead (dbFails : Bool) (st : Store) (messageId : Nat) (now : Nat) :
    Store × MarkReadResult :=
  if dbFails then
    (st, MarkReadResult.serverError "Failed to mark as read")
  else
    ({ st with records := findByIdAndUpdateRead st.records messageId now },
      MarkReadResult.success)

/-- The `$or` filter of the inbox query: addressed to the agent, or a
broadcast. -/
def inboxFilter (agentCode : String) (m : MessageRecord) : Bool :=
  (m.toCode == some agentCode) || (m.type == "broadcast")

/-- Insert a record into a list sorted by descending timestamp. -/
def insertByTs (m : MessageRecord) : List MessageRecord → List MessageRecord
  | [] => [m]
  | x :: xs => if x.timestamp ≤ m.timestamp then m :: x :: xs else x :: insertByTs m xs

/-- `.sort(\x7btimestamp: -1\x7d)`: order by descending timestamp. -/
def sortByTsDesc : List MessageRecord → List MessageRecord
  | [] => []
  | x :: xs => insertByTs x (sortByTsDesc xs)

/-- The store query behind `GET /agent/:agentCode`, the spec's
`queryInbox`: `find` with the inbox filter, sort newest first, `limit`. -/
def queryInbox (st : Store) (agentCode : String) (limit : Nat) : List MessageRecord :=
  (sortByTsDesc (st.records.filter (inboxFilter agentCode))).take limit

/-- `parseInt(req.query.limit) || 50`: an absent or zero limit falls
back to 50. -/
def resolveLimit : Option Nat → Nat
  | some n => if n = 0 then 50 else n
  | none => 50

/-- `GET /agent/:agentCode`. -/
def getAgentMessages (st : Store) (agentCode : String)
    (limitParam : Option Nat) : List MessageRecord :=
  queryInbox st agentCode (resolveLimit limitParam)

/-- The fields of a record that mark-read must not touch: everything
but `isRead` and `readAt`. -/
def sameCore (m n : MessageRecord) : Prop :=
  n.id = m.id ∧ n.fromCode = m.fromCode ∧ n.toCode = m.toCode ∧
  n.content = m.content ∧ n.type = m.type ∧ n.priority = m.priority ∧
  n.timestamp = m.timestamp

/-- Descending-timestamp order between records (newest first). -/
def tsGe (a b : MessageRecord) : Prop := b.timestamp ≤ a.timestamp

/-! ### Helper lemmas -/

theorem mem_insertByTs {a m : MessageRecord} {l : List MessageRecord} :
    a ∈ insertByTs m l ↔ a = m ∨ a ∈ l := by
  induction l with
  | nil => simp [insertByTs]
  | cons x xs ih =>
      simp only [insertByTs]
      split
      · simp [List.mem_cons]
      · simp only [List.mem_cons, ih]
        tauto

theorem pairwise_insertByTs {m : MessageRecord} {l : List MessageRecord}
    (h : List.Pairwise tsGe l) : List.Pairwise tsGe (insertByTs m l) := by
  induction l with
  | nil => simp [insertByTs]
  | cons x xs ih =>
      rw [List.pairwise_cons] at h
      simp only [insertByTs]
      split
      · rename_i hxm
        refine List.Pairwise.cons ?_ (List.Pairwise.cons h.1 h.2)
        intro b hb
        rcases List.mem_cons.mp hb with rfl | hb2
        · exact hxm
        · exact le_trans (h.1 b hb2) hxm
      · rename_i hxm
        refine List.Pairwise.cons ?_ (ih h.2)
        intro b hb
        rcases mem_insertByTs.mp hb with rfl | hb2
        · unfold tsGe
          omega
        · exact h.1 b hb2

theorem pairwise_sortByTsDesc (l : List MessageRecord) :
    List.Pairwise tsGe (sortByTsDesc l) := by
  induction l with
  | nil => simp [sortByTsDesc]
  | cons x xs ih => exact pairwise_insertByTs ih

theorem mem_sortByTsDesc {a : MessageRecord} {l : List MessageRecord} :
    a ∈ sortByTsDesc l ↔ a ∈ l := by
  induction l with
  | nil => simp [sortByTsDesc]
  | cons x xs ih => simp [sortByTsDesc, mem_insertByTs, ih]

/-- The record written by mark-read agrees with the original on every
field other than `isRead` and `readAt`. -/
theorem sameCore_updateRead (m : MessageRecord) (mid now : Nat) :
    sameCore m (if m.id = mid then { m with isRead := true, readAt := some now } else m) := by
  by_cases hx : m.id = mid <;> simp [sameCore, hx]

theorem forall₂_sameCore_markRead (l : List MessageRecord) (mid now : Nat) :
    List.Forall₂ sameCore l (findByIdAndUpdateRead l mid now) := by
  induction l with
  | nil => exact List.Forall₂.nil
  | cons x xs ih =>
      simp only [findByIdAndUpdateRead, List.map_cons] at ih ⊢
      exact List.Forall₂.cons (sameCore_updateRead x mid now) ih

/-- The send route only ever leaves the stored records alone or appends
the one new document. -/
theorem postSend_records_extends (sf : Bool) (sock : Option (List Connection))
    (st : Store) (req : SendRequest) (now : Nat) :
    (postSend sf sock st req now).1.records = st.records ∨
    (postSend sf sock st req now).1.records = st.records ++ [mkMessage st req now] := by
  by_cases hv : (!(truthy req.fromCode) || !(truthy (jsOr req.message req.content))) = true
  · left
    simp [postSend, hv]
  · by_cases hsf : sf = true
    · left
      simp [postSend, hv, hsf]
    · right
      simp [postSend, hv, hsf]

/-! ### Concrete demonstration inputs -/

/-- A stored direct message from A100 to A200. -/
def dRec : MessageRecord :=
  ⟨0, "A100", some "A200", "hi", "direct", "normal", 10, false, none⟩

/-- A store holding `dRec`, next id 1. -/
def dStore : Store := ⟨[dRec], 1⟩

/-- An agent connection subscribed under its own code. -/
def dConnA : Connection := ⟨1, "agent", ["A100"]⟩

/-- A supervisor connection. -/
def dConnS : Connection := ⟨2, "supervisor", ["S1"]⟩

/-- A second agent connection, subscribed under A200. -/
def dConnB : Connection := ⟨3, "agent", ["A200"]⟩

/-- A broadcast request that also (pointlessly) supplies a toCode. -/
def dReqBC : SendRequest :=
  ⟨some "A100", some "IGNORED", some "shift ending", none, some "broadcast", none⟩

/-- A direct-message request with the `type` field omitted. -/
def dReqDM : SendRequest :=
  ⟨some "A100", some "A200", none, some "break soon", none, some "high"⟩

/-- A request missing `fromCode`. -/
def dReqBad : SendRequest := ⟨none, some "A200", some "x", none, none, none⟩

/-! ### Claim theorems -/

/-- C9: a send request with falsy `fromCode`, or with both `message`
and `content` falsy, is rejected with the 400 validation error; the
store is unchanged and no push is emitted. -/
theorem invalid_send_rejected_no_effect (sf : Bool) (sock : Option (List Connection))
    (st : Store) (req : SendRequest) (now : Nat)
    (h : truthy req.fromCode = false ∨ truthy (jsOr req.message req.content) = false) :
    postSend sf sock st req now =
      (st, [], SendResult.badRequest "From code and message are required") := by
  rcases h with h | h <;> simp [postSend, h]

/-- C9 witness: the concrete request with absent fromCode. -/
theorem invalid_send_rejected_no_effect_witness :
    postSend false (some [dConnA]) dStore dReqBad 7 =
      (dStore, [], SendResult.badRequest "From code and message are required") :=
  invalid_send_rejected_no_effect false (some [dConnA]) dStore dReqBad 7
    (Or.inl (by decide))

/-- C3: when the persistence insert fails on a validated request, the
sender receives the 500 failure acknowledgment, the store is unchanged
and no push of either kind is emitted. -/
theorem send_persist_failure_acks_and_skips_push (sock : Option (List Connection))
    (st : Store) (req : SendRequest) (now : Nat)
    (hfrom : truthy req.fromCode = true)
    (htext : truthy (jsOr req.message req.content) = true) :
    postSend true sock st req now =
      (st, [], SendResult.serverError "Failed to send message") := by
  simp [postSend, hfrom, htext]

/-- C3 witness: a failing insert on the concrete direct request. -/
theorem send_persist_failure_acks_and_skips_push_witness :
    postSend true (some [dConnA, dConnB]) dStore dReqDM 20 =
      (dStore, [], SendResult.serverError "Failed to send message") :=
  send_persist_failure_acks_and_skips_push (some [dConnA, dConnB]) dStore dReqDM 20
    (by decide) (by decide)

/-- C8: a broadcast send persists its record with `toCode = none`
whatever `toCode` the request carried, and the send route preserves the
invariant that every stored broadcast record has `toCode = none`. -/
theorem broadcast_record_has_no_toCode (sf : Bool) (sock : Option (List Connection))
    (st : Store) (req : SendRequest) (now : Nat)
    (hty : req.type.getD "direct" = "broadcast")
    (hinv : ∀ m ∈ st.records, m.type = "broadcast" → m.toCode = none) :
    (mkMessage st req now).toCode = none ∧
    ∀ m ∈ (postSend sf sock st req now).1.records,
      m.type = "broadcast" → m.toCode = none := by
  constructor
  · simp [mkMessage, hty]
  · intro m hm hb
    rcases postSend_records_extends sf sock st req now with he | he
    · rw [he] at hm
      exact hinv m hm hb
    · rw [he] at hm
      rcases List.mem_append.mp hm with hm2 | hm2
      · exact hinv m hm2 hb
      · have hms := List.mem_singleton.mp hm2
        subst hms
        simp [mkMessage, hty]

/-- C8 witness: the concrete broadcast request carrying a toCode. -/
theorem broadcast_record_has_no_toCode_witness :
    (mkMessage dStore dReqBC 30).toCode = none ∧
    ∀ m ∈ (postSend false (some [dConnA, dConnS]) dStore dReqBC 30).1.records,
      m.type = "broadcast" → m.toCode = none :=
  broadcast_record_has_no_toCode false (some [dConnA, dConnS]) dStore dReqBC 30
    (by decide) (by decide)

/-- C10: with the `type` field omitted the message is treated as
direct: the persisted record has type `direct` and keeps the supplied
`toCode`, and the only push emitted is a `new_direct_message` to the
connections in the `toCode` room, never a `new_broadcast_message`. -/
theorem omitted_type_defaults_to_direct (conns : List Connection) (st : Store)
    (req : SendRequest) (now : Nat) (hty : req.type = none)
    (hfrom : truthy req.fromCode = true)
    (htext : truthy (jsOr req.message req.content) = true) :
    (mkMessage st req now).type = "direct" ∧
    (mkMessage st req now).toCode = req.toCode ∧
    (postSend false (some conns) st req now).1.records =
      st.records ++ [mkMessage st req now] ∧
    (postSend false (some conns) st req now).2.1 =
      (conns.filter (roomMatch req.toCode)).map
        (fun c => (c.connId, "new_direct_message", mkMessage st req now)) := by
  have hne : ("direct" : String) ≠ "broadcast" := by decide
  refine ⟨by simp [mkMessage, hty], by simp [mkMessage, hty, hne], ?_, ?_⟩
  · simp [postSend, hfrom, htext]
  · simp [postSend, hfrom, htext, hty, hne, ioToEmit]

/-- C10 witness: the concrete direct request, whose `type` is absent. -/
theorem omitted_type_defaults_to_direct_witness :
    (mkMessage dStore dReqDM 40).type = "direct" ∧
    (mkMessage dStore dReqDM 40).toCode = dReqDM.toCode ∧
    (postSend false (some [dConnA, dConnB]) dStore dReqDM 40).1.records =
      dStore.records ++ [mkMessage dStore dReqDM 40] ∧
    (postSend false (some [dConnA, dConnB]) dStore dReqDM 40).2.1 =
      ([dConnA, dConnB].filter (roomMatch dReqDM.toCode)).map
        (fun c => (c.connId, "new_direct_message", mkMessage dStore dReqDM 40)) :=
  omitted_type_defaults_to_direct [dConnA, dConnB] dStore dReqDM 40
    (by decide) (by decide) (by decide)

/-- On a validated broadcast send with the store succeeding, the push
list is one `new_broadcast_message` per currently-connected socket. -/
theorem postSend_broadcast_pushes (conns : List Connection) (st : Store)
    (req : SendRequest) (now : Nat)
    (hty : req.type.getD "direct" = "broadcast")
    (hfrom : truthy req.fromCode = true)
    (htext : truthy (jsOr req.message req.content) = true) :
    (postSend false (some conns) st req now).2.1 =
      conns.map (fun c => (c.connId, "new_broadcast_message", mkMessage st req now)) := by
  simp [postSend, hty, hfrom, htext, ioEmit]

/-- C1 counterexample: the send route emits a broadcast with `io.emit`,
which reaches every connected socket, so a connected supervisor — a
connection without the eligible role `agent` — receives the
`new_broadcast_message` push, contradicting the claim that no other
connection receives it. -/
theorem broadcast_reaches_supervisor_connection :
    (2, "new_broadcast_message", mkMessage dStore dReqBC 5) ∈
      (postSend false (some [dConnA, dConnS]) dStore dReqBC 5).2.1 ∧
    dConnS.connId = 2 ∧ dConnS.role = "supervisor" ∧ dConnS.role ≠ "agent" := by
  refine ⟨?_, rfl, rfl, by decide⟩
  simp [postSend, dStore, dReqBC, dConnA, dConnS, ioEmit, truthy, jsOr]

/-- C1 (amended): a broadcast send pushes one `new_broadcast_message`
to every currently-connected socket, whatever its role, and to nothing
else: the push list is exactly one entry per connection present at send
time, so a connection registered afterwards never receives it. -/
theorem broadcast_push_targets_all_connections (conns : List Connection)
    (st : Store) (req : SendRequest) (now : Nat)
    (hty : req.type.getD "direct" = "broadcast")
    (hfrom : truthy req.fromCode = true)
    (htext : truthy (jsOr req.message req.content) = true) :
    (postSend false (some conns) st req now).2.1 =
      conns.map (fun c => (c.connId, "new_broadcast_message", mkMessage st req now)) :=
  postSend_broadcast_pushes conns st req now hty hfrom htext

/-- C1 witness: the concrete broadcast with one agent and one
supervisor online. -/
theorem broadcast_push_targets_all_connections_witness :
    (postSend false (some [dConnA, dConnS]) dStore dReqBC 5).2.1 =
      [dConnA, dConnS].map
        (fun c => (c.connId, "new_broadcast_message", mkMessage dStore dReqBC 5)) :=
  broadcast_push_targets_all_connections [dConnA, dConnS] dStore dReqBC 5
    (by decide) (by decide) (by decide)

/-- C2: a validated direct send always stores its record, and the push
list is exactly one `new_direct_message` per connection subscribed under
the `toCode` room key; in particular when no live connection is
subscribed under that key (recipient offline) the record is stored and
zero pushes are delivered. -/
theorem direct_send_stores_and_routes_to_room (conns : List Connection)
    (st : Store) (req : SendRequest) (now : Nat)
    (hty : req.type.getD "direct" ≠ "broadcast")
    (hfrom : truthy req.fromCode = true)
    (htext : truthy (jsOr req.message req.content) = true) :
    (postSend false (some conns) st req now).1.records =
      st.records ++ [mkMessage st req now] ∧
    (postSend false (some conns) st req now).2.1 =
      (conns.filter (roomMatch req.toCode)).map
        (fun c => (c.connId, "new_direct_message", mkMessage st req now)) ∧
    ((∀ c ∈ conns, roomMatch req.toCode c = false) →
      (postSend false (some conns) st req now).2.1 = []) := by
  refine ⟨by simp [postSend, hfrom, htext], ?_, ?_⟩
  · simp [postSend, hfrom, htext, hty, ioToEmit]
  · intro hoff
    have hnil : conns.filter (roomMatch req.toCode) = [] := by
      rw [List.filter_eq_nil_iff]
      intro c hc
      simp [hoff c hc]
    simp [postSend, hfrom, htext, hty, ioToEmit, hnil]

/-- C2 witness: A100 sends the concrete direct message to A200 while
only dConnA and dConnS are online, neither subscribed under A200: the
record is stored and the push list is empty. -/
theorem direct_send_stores_and_routes_to_room_witness :
    (postSend false (some [dConnA, dConnS]) dStore dReqDM 40).1.records =
      dStore.records ++ [mkMessage dStore dReqDM 40] ∧
    (postSend false (some [dConnA, dConnS]) dStore dReqDM 40).2.1 =
      ([dConnA, dConnS].filter (roomMatch dReqDM.toCode)).map
        (fun c => (c.connId, "new_direct_message", mkMessage dStore dReqDM 40)) ∧
    ((∀ c ∈ [dConnA, dConnS], roomMatch dReqDM.toCode c = false) →
      (postSend false (some [dConnA, dConnS]) dStore dReqDM 40).2.1 = []) :=
  direct_send_stores_and_routes_to_room [dConnA, dConnS] dStore dReqDM 40
    (by decide) (by decide) (by decide)

/-- C7: a successful broadcast send appends exactly one record to the
store, and every push it emits is a `new_broadcast_message` carrying
that very record — identical content and a shared message id across all
recipients. -/
theorem broadcast_single_record_shared_payload (conns : List Connection)
    (st : Store) (req : SendRequest) (now : Nat)
    (hty : req.type.getD "direct" = "broadcast")
    (hfrom : truthy req.fromCode = true)
    (htext : truthy (jsOr req.message req.content) = true) :
    (postSend false (some conns) st req now).1.records =
      st.records ++ [mkMessage st req now] ∧
    (postSend false (some conns) st req now).1.records.length =
      st.records.length + 1 ∧
    ∀ p ∈ (postSend false (some conns) st req now).2.1,
      p.2.1 = "new_broadcast_message" ∧
      p.2.2.id = (mkMessage st req now).id ∧
      p.2.2.content = (mkMessage st req now).content := by
  refine ⟨by simp [postSend, hfrom, htext], by simp [postSend, hfrom, htext], ?_⟩
  intro p hp
  rw [postSend_broadcast_pushes conns st req now hty hfrom htext] at hp
  rcases List.mem_map.mp hp with ⟨c, _, rfl⟩
  exact ⟨rfl, rfl, rfl⟩

/-- C7 witness: the concrete broadcast with two connections online. -/
theorem broadcast_single_record_shared_payload_witness :
    (postSend false (some [dConnA, dConnB]) dStore dReqBC 30).1.records =
      dStore.records ++ [mkMessage dStore dReqBC 30] ∧
    (postSend false (some [dConnA, dConnB]) dStore dReqBC 30).1.records.length =
      dStore.records.length + 1 ∧
    ∀ p ∈ (postSend false (some [dConnA, dConnB]) dStore dReqBC 30).2.1,
      p.2.1 = "new_broadcast_message" ∧
      p.2.2.id = (mkMessage dStore dReqBC 30).id ∧
      p.2.2.content = (mkMessage dStore dReqBC 30).content :=
  broadcast_single_record_shared_payload [dConnA, dConnB] dStore dReqBC 30
    (by decide) (by decide) (by decide)

/-- C4 counterexample: marking the stored message read at time 1 sets
`readAt = some 1`, but marking it read again at time 2 overwrites
`readAt` to `some 2` — the route unconditionally writes a fresh
`new Date()`, so `readAt` does not keep reflecting the first mark. -/
theorem mark_read_twice_overwrites_readAt :
    (putMarkRead false dStore 0 1).1.records.map (fun m => m.readAt) = [some 1] ∧
    (putMarkRead false (putMarkRead false dStore 0 1).1 0 2).1.records.map
      (fun m => m.readAt) = [some 2] ∧
    (some 2 : Option Nat) ≠ some 1 := by
  refine ⟨?_, ?_, by decide⟩ <;>
    simp [putMarkRead, findByIdAndUpdateRead, dStore, dRec]

/-- C4 (amended): marking a message read twice never errors and keeps
`isRead = true`, but `readAt` reflects the most recent mark-read call
(the second call overwrites it), not the first. -/
theorem mark_read_twice_succeeds_latest_readAt (st : Store) (mid t1 t2 : Nat) :
    (putMarkRead false st mid t1).2 = MarkReadResult.success ∧
    (putMarkRead false (putMarkRead false st mid t1).1 mid t2).2 =
      MarkReadResult.success ∧
    ∀ m ∈ (putMarkRead false (putMarkRead false st mid t1).1 mid t2).1.records,
      m.id = mid → m.isRead = true ∧ m.readAt = some t2 := by
  refine ⟨rfl, rfl, ?_⟩
  intro m hm hid
  simp only [putMarkRead, Bool.false_eq_true, if_false, findByIdAndUpdateRead,
    List.map_map] at hm
  rcases List.mem_map.mp hm with ⟨x, hx, rfl⟩
  by_cases h1 : x.id = mid
  · simp [Function.comp, h1]
  · simp [Function.comp, h1] at hid

/-- C4 witness: the concrete double mark-read on the stored message. -/
theorem mark_read_twice_succeeds_latest_readAt_witness :
    (putMarkRead false dStore 0 3).2 = MarkReadResult.success ∧
    (putMarkRead false (putMarkRead false dStore 0 3).1 0 4).2 =
      MarkReadResult.success ∧
    ∀ m ∈ (putMarkRead false (putMarkRead false dStore 0 3).1 0 4).1.records,
      m.id = 0 → m.isRead = true ∧ m.readAt = some 4 :=
  mark_read_twice_succeeds_latest_readAt dStore 0 3 4

/-- A Forall₂ relation yields, for each member of the left list, a
related member of the right list. -/
theorem forall₂_exists_mem {α β : Type} {R : α → β → Prop} {l : List α}
    {l2 : List β} (h : List.Forall₂ R l l2) : ∀ m ∈ l, ∃ n ∈ l2, R m n := by
  induction h with
  | nil => simp
  | cons hab htl ih =>
      intro m hm
      rcases List.mem_cons.mp hm with rfl | hm2
      · exact ⟨_, List.mem_cons_self _ _, hab⟩
      · rcases ih m hm2 with ⟨n, hn, hmn⟩
        exact ⟨n, List.mem_cons_of_mem _ hn, hmn⟩

/-- C5: mark-read changes at most `isRead` and `readAt` — the stored
list stays pointwise `sameCore`-related (same id, fromCode, toCode,
content, type, priority, timestamp) — and no operation of this core
deletes a stored record: every stored record survives both the send
route and the mark-read route with its core fields intact. -/
theorem mark_read_frame_and_no_delete (st : Store) (mid now t : Nat)
    (df sf : Bool) (sock : Option (List Connection)) (req : SendRequest) :
    List.Forall₂ sameCore st.records ((putMarkRead df st mid now).1.records) ∧
    (∀ m ∈ st.records, ∃ n ∈ (postSend sf sock st req t).1.records, sameCore m n) ∧
    (∀ m ∈ st.records, ∃ n ∈ (putMarkRead df st mid now).1.records, sameCore m n) := by
  have hrefl : ∀ m : MessageRecord, sameCore m m := fun m => by simp [sameCore]
  have hframe : List.Forall₂ sameCore st.records ((putMarkRead df st mid now).1.records) := by
    cases df
    · simpa [putMarkRead] using forall₂_sameCore_markRead st.records mid now
    · simp only [putMarkRead, if_pos]
      exact List.forall₂_same.mpr (fun m _ => hrefl m)
  refine ⟨hframe, ?_, forall₂_exists_mem hframe⟩
  intro m hm
  rcases postSend_records_extends sf sock st req t with he | he <;> rw [he]
  · exact ⟨m, hm, hrefl m⟩
  · exact ⟨m, List.mem_append_left _ hm, hrefl m⟩

/-- C5 witness: the concrete store, mark-read and send inputs. -/
theorem mark_read_frame_and_no_delete_witness :
    List.Forall₂ sameCore dStore.records ((putMarkRead false dStore 0 9).1.records) ∧
    (∀ m ∈ dStore.records,
      ∃ n ∈ (postSend false (some [dConnA]) dStore dReqDM 9).1.records, sameCore m n) ∧
    (∀ m ∈ dStore.records,
      ∃ n ∈ (putMarkRead false dStore 0 9).1.records, sameCore m n) :=
  mark_read_frame_and_no_delete dStore 0 9 9 false false (some [dConnA]) dReqDM

/-- C6: the inbox query returns at most `limit` records, ordered by
descending timestamp (newest first), and every returned record is
either addressed to the agent or a broadcast. -/
theorem inbox_sorted_filtered_limited (st : Store) (agentCode : String)
    (limit : Nat) :
    (queryInbox st agentCode limit).length ≤ limit ∧
    List.Pairwise tsGe (queryInbox st agentCode limit) ∧
    ∀ m ∈ queryInbox st agentCode limit,
      m.toCode = some agentCode ∨ m.type = "broadcast" := by
  refine ⟨?_, ?_, ?_⟩
  · rw [queryInbox, List.length_take]
    exact Nat.min_le_left _ _
  · exact List.Pairwise.sublist (List.take_sublist _ _) (pairwise_sortByTsDesc _)
  · intro m hm
    have h1 : m ∈ sortByTsDesc (st.records.filter (inboxFilter agentCode)) :=
      List.mem_of_mem_take hm
    have h2 : m ∈ st.records.filter (inboxFilter agentCode) :=
      mem_sortByTsDesc.mp h1
    have h3 := (List.mem_filter.mp h2).2
    simpa [inboxFilter] using h3

/-- C6 witness: the concrete store queried for A200 with limit 1. -/
theorem inbox_sorted_filtered_limited_witness :
    (queryInbox dStore "A200" 1).length ≤ 1 ∧
    List.Pairwise tsGe (queryInbox dStore "A200" 1) ∧
    ∀ m ∈ queryInbox dStore "A200" 1,
      m.toCode = some "A200" ∨ m.type = "broadcast" :=
  inbox_sorted_filtered_limited dStore "A200" 1

end Wallboard
